import Mathlib

/-!
Shallow embedding of the create-cloudflare telemetry reporter
(`createReporter`, `collectAsyncMetrics`, `sendEvent`, `setEventProperty`,
`updateC3Pemission`, `waitForAllEventsSettled`) and of the D1 `batchSplit`
helper, together with theorems settling the specification claims.

JavaScript objects holding event properties are modelled as association
lists in insertion order; spread semantics (`{...a, ...b}`, later keys win)
is captured by `getProp`, which takes the value of the last occurrence of a
key.  Wall-clock readings (`Date.now()`) are explicit `Nat` parameters.
Promise settlement is modelled by the `Settlement`/`PromiseResult` types:
a promise settles at most once, and later resolutions or rejections of an
already-settled promise are no-ops, as in JavaScript.
-/

namespace C3

/-- A JavaScript value as it appears in event property bags.  Numbers are
modelled as exact rationals (the durations divide milliseconds by 1000 and
60).  `errorDesc` models the `{message, stack}` object built in the
`errored` branch, where either field may be `undefined`. -/
inductive JsValue where
  | num (q : Rat)
  | str (s : String)
  | bool (b : Bool)
  | undef
  | errorDesc (message stack : Option String)
deriving DecidableEq

/-- A property bag, in insertion order (later entries override earlier ones
on lookup, as with JavaScript object spread). -/
abbrev PropList := List (String × JsValue)

/-- Lookup in a property bag; the LAST occurrence of a key wins, matching
the semantics of object spread in the source. -/
def getProp : PropList → String → Option JsValue
  | [], _ => none
  | (k', v) :: rest, k => (getProp rest k).or (if k' = k then some v else none)

/-- A thrown JavaScript value: a `CancelError` (from `@cloudflare/cli/error`,
carrying the originating signal), a plain `Error` (with a `message` and an
optional `stack`), or a non-`Error` value. -/
inductive JsError where
  | cancelError (message : String) (signal : Option String)
  | error (message : String) (stack : Option String)
  | raw (v : JsValue)
deriving DecidableEq

/-- `e instanceof CancelError` -/
def JsError.isCancelError : JsError → Bool
  | .cancelError _ _ => true
  | _ => false

/-- `e instanceof Error ? e.message : undefined` -/
def JsError.jsMessage : JsError → Option String
  | .cancelError m _ => some m
  | .error m _ => some m
  | .raw _ => none

/-- `e instanceof Error ? e.stack : undefined` (the stack of a
`CancelError` is irrelevant here: the source only reads `e.stack` on the
non-`CancelError` branch). -/
def JsError.jsStack : JsError → Option String
  | .error _ s => s
  | _ => none

end C3

namespace C3

/-- The per-process session data captured by `createReporter`:  the
telemetry permission, the build-time sparrow source key gate, and the
session metadata merged into every payload. -/
structure SessionConfig where
  telemetryEnabled : Bool
  hasSparrowSourceKey : Bool
  deviceId : String
  amplitude_session_id : Nat
  platform : String
  c3Version : String
  isFirstUsage : Bool
  packageManager : String
deriving DecidableEq

/-- The payload handed to `sparrow.sendEvent` (its `event`, `deviceId`,
`timestamp` and `properties` fields). -/
structure EventPayload where
  event : String
  deviceId : String
  timestamp : Nat
  properties : PropList
deriving DecidableEq

/-- The mutable state of one reporter: the list of dispatched payloads (in
dispatch order) and the `amplitude_event_id` counter. -/
structure ReporterState where
  events : List EventPayload
  amplitude_event_id : Nat
deriving DecidableEq

/-- The reporter state at process start: no events, counter `0`. -/
def initialReporterState : ReporterState := { events := [], amplitude_event_id := 0 }

/-- The session-metadata properties that `sendEvent` places before the
caller-supplied properties (`amplitude_session_id`, `amplitude_event_id`,
`platform`, `c3Version`, `isFirstUsage`, `packageManager`). -/
def sessionProps (cfg : SessionConfig) (eventId : Nat) : PropList :=
  [("amplitude_session_id", .num cfg.amplitude_session_id),
   ("amplitude_event_id", .num eventId),
   ("platform", .str cfg.platform),
   ("c3Version", .str cfg.c3Version),
   ("isFirstUsage", .bool cfg.isFirstUsage),
   ("packageManager", .str cfg.packageManager)]

/-- `sendEvent(name, properties)`: gated on `telemetry.enabled` and
`sparrow.hasSparrowSourceKey()`; when open it builds the payload (event
name prefixed with the literal `"test "`, session metadata first, then the
caller properties), assigns the current `amplitude_event_id` and increments
the counter, and appends the dispatch to the events list. -/
def sendEvent (cfg : SessionConfig) (st : ReporterState) (name : String)
    (props : PropList) (now : Nat) : ReporterState :=
  if cfg.telemetryEnabled && cfg.hasSparrowSourceKey then
    { events := st.events ++
        [{ event := "test " ++ name, deviceId := cfg.deviceId, timestamp := now,
           properties := sessionProps cfg st.amplitude_event_id ++ props }],
      amplitude_event_id := st.amplitude_event_id + 1 }
  else st

/-- The result of `getDuration(startTime)`: `ms = Date.now() - startTime`,
`seconds = ms / 1000`, `minutes = ms / 1000 / 60`. -/
structure Duration where
  ms : Int
  seconds : Rat
  minutes : Rat
deriving DecidableEq

/-- `getDuration(startTime)` evaluated when `Date.now()` reads `now`. -/
def getDuration (startTime now : Nat) : Duration :=
  let ms : Int := (now : Int) - (startTime : Int)
  { ms := ms, seconds := (ms : Rat) / 1000, minutes := (ms : Rat) / 1000 / 60 }

/-- The three computed duration properties appended to every terminal
event's property bag. -/
def durationProps (d : Duration) : PropList :=
  [("durationMs", .num (d.ms : Rat)),
   ("durationSeconds", .num d.seconds),
   ("durationMinutes", .num d.minutes)]

end C3


namespace C3

/-- The settlement state of one promise.  A promise settles at most once:
`resolve` and `rejectWith` are no-ops on an already-settled promise, as in
JavaScript. -/
inductive Settlement (α : Type) where
  | pending
  | fulfilled (a : α)
  | rejected (e : JsError)
deriving DecidableEq

/-- Resolving a promise: only effective while it is still pending. -/
def Settlement.resolve {α : Type} (s : Settlement α) (a : α) : Settlement α :=
  match s with
  | .pending => .fulfilled a
  | s => s

/-- Rejecting a promise: only effective while it is still pending. -/
def Settlement.rejectWith {α : Type} (s : Settlement α) (e : JsError) : Settlement α :=
  match s with
  | .pending => .rejected e
  | s => s

/-- The rejection value produced by the `cancel` handler:
`new CancelError("Operation cancelled", signal)`. -/
def cancelSignalError (signal : Option String) : JsError :=
  .cancelError "Operation cancelled" signal

/-- One run of the `cancel` handler attached to SIGINT/SIGTERM: after the
10 ms grace period it calls `cancelDeferred.reject(new CancelError(...))`
on the shared deferred promise. -/
def cancelOnce {α : Type} (s : Settlement α) (signal : Option String) : Settlement α :=
  s.rejectWith (cancelSignalError signal)

/-- The settled outcome of the `Promise.race` awaited by
`collectAsyncMetrics`: the wrapped operation resolved with a result, or
the race rejected (either because the operation threw or because the
cancellation deferred rejected first with a `CancelError`). -/
inductive RaceOutcome (ρ : Type) where
  | resolved (r : ρ)
  | rejected (e : JsError)
deriving DecidableEq

/-- The options record taken by `collectAsyncMetrics`; `subject` models the
event name stem field of the source (the part of the event name shared by
the four lifecycle events), `props` the starting properties. -/
structure CollectOptions where
  subject : String
  props : PropList
  disableTelemetry : Bool
deriving DecidableEq

/-- One invocation of `collectAsyncMetrics`, with the asynchronous parts
made explicit: `addProps` is the contents of `additionalProperties` after
the wrapped operation ran (filled in through the AsyncLocalStorage-bound
`setEventProperty`), `outcome` is how the awaited race settled, and
`startTime`/`endTime` are the `Date.now()` readings at entry and at the
point the terminal event is built.  Returns the reporter state and the
value returned (or error rethrown) to the caller. -/
def collectAsyncMetrics {ρ : Type} (cfg : SessionConfig) (st : ReporterState)
    (opts : CollectOptions) (addProps : PropList) (outcome : RaceOutcome ρ)
    (startTime endTime : Nat) : ReporterState × Except JsError ρ :=
  let st1 := if opts.disableTelemetry then st
    else sendEvent cfg st (opts.subject ++ " started") opts.props startTime
  match outcome with
  | .resolved r =>
      let d := getDuration startTime endTime
      let st2 := if opts.disableTelemetry then st1
        else sendEvent cfg st1 (opts.subject ++ " completed")
          (opts.props ++ addProps ++ durationProps d) endTime
      (st2, Except.ok r)
  | .rejected e =>
      let d := getDuration startTime endTime
      let st2 := if opts.disableTelemetry then st1
        else if e.isCancelError then
          sendEvent cfg st1 (opts.subject ++ " cancelled")
            (opts.props ++ addProps ++ durationProps d) endTime
        else
          sendEvent cfg st1 (opts.subject ++ " errored")
            (opts.props ++ addProps ++ durationProps d
              ++ [("error", JsValue.errorDesc e.jsMessage e.jsStack)]) endTime
      (st2, Except.error e)

end C3

namespace C3

/-- The settlement result of one asynchronous computation, as seen by a
`.then`/`.catch` chain. -/
inductive PromiseResult (α : Type) where
  | fulfilled (a : α)
  | rejected (e : JsError)
deriving DecidableEq

/-- The `status` field of a dispatch record. -/
inductive DispatchStatus where
  | success
  | failed
deriving DecidableEq

/-- The record a dispatch promise fulfills with:
`{status, payload, reason?}`. -/
structure DispatchRecord where
  status : DispatchStatus
  payload : EventPayload
  reason : Option JsError
deriving DecidableEq

/-- The promise pushed onto `events` by `sendEvent`:
`Promise.resolve(sparrow.sendEvent(payload)).then(() => ({status:
"success", payload})).catch((reason) => ({status: "failed", payload,
reason}))`.  Whatever the send did, the chained promise fulfills. -/
def dispatchRecord (payload : EventPayload) (send : PromiseResult Unit) :
    PromiseResult DispatchRecord :=
  match send with
  | .fulfilled _ => .fulfilled { status := .success, payload := payload, reason := none }
  | .rejected r => .fulfilled { status := .failed, payload := payload, reason := some r }

/-- One entry of the array `Promise.allSettled` resolves with. -/
inductive SettledResult (α : Type) where
  | fulfilled (value : α)
  | rejected (reason : JsError)
deriving DecidableEq

/-- `Promise.allSettled(ps)`: always fulfills, with one settled entry per
input promise. -/
def promiseAllSettled {α : Type} (ps : List (PromiseResult α)) :
    PromiseResult (List (SettledResult α)) :=
  .fulfilled (ps.map fun p =>
    match p with
    | .fulfilled a => .fulfilled a
    | .rejected e => .rejected e)

/-- `waitForAllEventsSettled()`: awaits `Promise.allSettled(events)` and
returns (the logging of the settled results does not affect the result). -/
def waitForAllEventsSettled (eventPromises : List (PromiseResult DispatchRecord)) :
    PromiseResult Unit :=
  match promiseAllSettled eventPromises with
  | .fulfilled _ => .fulfilled ()
  | .rejected e => .rejected e

end C3

namespace C3

/-- The AsyncLocalStorage store bound by `als.run`: the closure writing
into the invocation's `additionalProperties` bag, modelled by the bag
itself. -/
structure AlsStore where
  additionalProperties : PropList
deriving DecidableEq

/-- The store's `setEventProperty(key, value)` closure:
`additionalProperties[key] = value` (an assignment, so a later lookup of
`key` sees the new value). -/
def storeSet (store : AlsStore) (k : String) (v : JsValue) : AlsStore :=
  { additionalProperties := store.additionalProperties ++ [(k, v)] }

/-- The reporter's exported `setEventProperty(key, value)`:  reads the
ambient store (`none` when called outside any `collectAsyncMetrics` call
tree); with no store it throws only when `process.env.VITEST` is set
(strict mode) and otherwise does nothing; with a store it forwards to the
store's closure. -/
def setEventProperty (vitestEnv : Bool) (store : Option AlsStore)
    (k : String) (v : JsValue) : Except JsError (Option AlsStore) :=
  match store with
  | none =>
      if vitestEnv then
        Except.error (.error "`setEventProperty` must be called within `collectAsyncMetrics`" none)
      else
        Except.ok none
  | some s => Except.ok (some (storeSet s k v))

end C3

namespace C3

/-- The persisted `c3permission` record: `{enabled, date}`. -/
structure C3PermissionRec where
  enabled : Bool
  date : Nat
deriving DecidableEq

/-- The persisted metrics config file contents. -/
structure MetricsConfig where
  c3permission : Option C3PermissionRec
  deviceId : Option String
deriving DecidableEq

/-- `initializeC3Permission(enabled)` stamped with the current time. -/
def initializeC3Permission (now : Nat) (enabled : Bool) : C3PermissionRec :=
  { enabled := enabled, date := now }

/-- `updateC3Pemission(enabled)`: reads the stored config; if the stored
record's enabled state already equals the requested one it returns without
writing; otherwise it replaces the record with a freshly stamped one and
writes the config.  Returns the persisted config and whether
`writeMetricsConfig` was called. -/
def updateC3Pemission (now : Nat) (stored : MetricsConfig) (enabled : Bool) :
    MetricsConfig × Bool :=
  if stored.c3permission.map (fun p => p.enabled) = some enabled then
    (stored, false)
  else
    ({ stored with c3permission := some (initializeC3Permission now enabled) }, true)

/-- The `enable`/`disable` actions of `runTelemetryCommand` route straight
through `updateC3Pemission`; `status` does not mutate.  Returns the
persisted config and whether a write happened. -/
def runTelemetryCommand (now : Nat) (stored : MetricsConfig) :
    String → MetricsConfig × Bool
  | "enable" => updateC3Pemission now stored true
  | "disable" => updateC3Pemission now stored false
  | _ => (stored, false)

end C3

namespace C3

/-- One call to `sendEvent`, with the `Date.now()` reading explicit. -/
structure SendRequest where
  name : String
  props : PropList
  now : Nat
deriving DecidableEq

/-- A sequence of `sendEvent` calls against one reporter. -/
def runSends (cfg : SessionConfig) (st : ReporterState) (reqs : List SendRequest) :
    ReporterState :=
  reqs.foldl (fun s r => sendEvent cfg s r.name r.props r.now) st

/-- The `amplitude_event_id` property of a dispatched payload. -/
def eventIdOf (p : EventPayload) : Option JsValue :=
  getProp p.properties "amplitude_event_id"

end C3

namespace D1

/-- JavaScript `Array.prototype.slice(start, stop)` on a list (for
non-negative indices, as used by `batchSplit`). -/
def jsSlice {α : Type} (l : List α) (start stop : Nat) : List α :=
  (l.take stop).drop start

/-- `batchSplit(queries, batchSize)` from the D1 execute command:
`num_batches = Math.ceil(queries.length / batchSize)` and batch `i` is
`queries.slice(i * batchSize, (i + 1) * batchSize).join("; ")`. -/
def batchSplit (queries : List String) (batchSize : Nat) : List String :=
  let num_batches := (queries.length + batchSize - 1) / batchSize
  (List.range num_batches).map fun i =>
    String.intercalate "; " (jsSlice queries (i * batchSize) ((i + 1) * batchSize))

/-- The reference chunking of a list into consecutive runs of at most
`batchSize` elements, used to state what `batchSplit` computes. -/
def chunkList {α : Type} (batchSize : Nat) : List α → List (List α)
  | [] => []
  | q :: rest =>
      if _h : batchSize = 0 then [q :: rest]
      else (q :: rest).take batchSize :: chunkList batchSize ((q :: rest).drop batchSize)
termination_by l => l.length
decreasing_by
  simp only [List.length_drop, List.length_cons]
  omega

end D1

namespace C3

/-- The suffix of the terminal event name chosen by `collectAsyncMetrics`
for a given race outcome: `completed` on resolution, `cancelled` when the
caught failure is a `CancelError`, `errored` otherwise. -/
def terminalSuffix {ρ : Type} : RaceOutcome ρ → String
  | .resolved _ => " completed"
  | .rejected e => if e.isCancelError then " cancelled" else " errored"

/-- The computed properties appended after the duration fields: nothing
for `completed`/`cancelled`, the `error` descriptor for `errored`. -/
def terminalExtra {ρ : Type} : RaceOutcome ρ → PropList
  | .resolved _ => []
  | .rejected e =>
      if e.isCancelError then []
      else [("error", JsValue.errorDesc e.jsMessage e.jsStack)]

/-- What `collectAsyncMetrics` hands back to the caller: the result on
resolution, the rethrown failure otherwise. -/
def resultOf {ρ : Type} : RaceOutcome ρ → Except JsError ρ
  | .resolved r => Except.ok r
  | .rejected e => Except.error e

/-- The property keys whose values are computed by `collectAsyncMetrics`
itself when building the terminal event: the three duration fields always,
plus `error` for errored events. -/
def computedKeys {ρ : Type} : RaceOutcome ρ → List String
  | .resolved _ => ["durationMs", "durationSeconds", "durationMinutes"]
  | .rejected e =>
      if e.isCancelError then ["durationMs", "durationSeconds", "durationMinutes"]
      else ["durationMs", "durationSeconds", "durationMinutes", "error"]

/-- The payload of the `started` event dispatched by a telemetry-enabled
invocation of `collectAsyncMetrics` entered in state `st`. -/
def startedPayload (cfg : SessionConfig) (st : ReporterState) (opts : CollectOptions)
    (startTime : Nat) : EventPayload :=
  { event := "test " ++ (opts.subject ++ " started"), deviceId := cfg.deviceId,
    timestamp := startTime,
    properties := sessionProps cfg st.amplitude_event_id ++ opts.props }

/-- The payload of the terminal event dispatched by a telemetry-enabled
invocation of `collectAsyncMetrics` entered in state `st`. -/
def terminalPayload {ρ : Type} (cfg : SessionConfig) (st : ReporterState)
    (opts : CollectOptions) (addProps : PropList) (outcome : RaceOutcome ρ)
    (startTime endTime : Nat) : EventPayload :=
  { event := "test " ++ (opts.subject ++ terminalSuffix outcome),
    deviceId := cfg.deviceId, timestamp := endTime,
    properties := sessionProps cfg (st.amplitude_event_id + 1)
      ++ (opts.props ++ addProps ++ durationProps (getDuration startTime endTime)
          ++ terminalExtra outcome) }

/-- A concrete session with telemetry enabled and the sparrow key present,
used to instantiate the theorems with hypotheses. -/
def cfg0 : SessionConfig :=
  { telemetryEnabled := true, hasSparrowSourceKey := true, deviceId := "device-0",
    amplitude_session_id := 1700000000000, platform := "Linux", c3Version := "2.5.0",
    isFirstUsage := true, packageManager := "npm" }

/-- Concrete telemetry-enabled options for the witnesses. -/
def opts0 : CollectOptions :=
  { subject := "c3 session", props := [("alreadyLoggedIn", .bool false)],
    disableTelemetry := false }

/-- An invocation whose starting AND context property bags both bind the
key `"error"` while the wrapped operation throws `Error("boom")`; used to
decide how the merge order treats a context key that collides with the
computed error descriptor of an errored event. -/
def errorKeyCollisionRun : ReporterState × Except JsError Nat :=
  collectAsyncMetrics cfg0 initialReporterState
    { subject := "c3 session", props := [("error", .str "fromStart")],
      disableTelemetry := false }
    [("error", .str "fromContext")]
    (RaceOutcome.rejected (.error "boom" none)) 0 5

end C3

namespace C3

theorem getProp_append (l₁ l₂ : PropList) (k : String) :
    getProp (l₁ ++ l₂) k = (getProp l₂ k).or (getProp l₁ k) := by
  induction l₁ with
  | nil => simp [getProp]
  | cons p rest ih =>
      cases p with
      | mk k' v =>
          simp only [List.cons_append, getProp, List.append_eq, ih, Option.or_assoc]

theorem getProp_sessionProps_eventId (cfg : SessionConfig) (i : Nat) :
    getProp (sessionProps cfg i) "amplitude_event_id" = some (.num (i : Rat)) := by
  simp [sessionProps, getProp]

theorem getProp_durationProps_ms (d : Duration) :
    getProp (durationProps d) "durationMs" = some (.num (d.ms : Rat)) := by
  simp [durationProps, getProp]

theorem getProp_durationProps_seconds (d : Duration) :
    getProp (durationProps d) "durationSeconds" = some (.num d.seconds) := by
  simp [durationProps, getProp]

theorem getProp_durationProps_minutes (d : Duration) :
    getProp (durationProps d) "durationMinutes" = some (.num d.minutes) := by
  simp [durationProps, getProp]

theorem getProp_durationProps_of_not_mem (d : Duration) (k : String)
    (h₁ : k ≠ "durationMs") (h₂ : k ≠ "durationSeconds")
    (h₃ : k ≠ "durationMinutes") :
    getProp (durationProps d) k = none := by
  simp [durationProps, getProp, (Ne.symm h₁), (Ne.symm h₂), (Ne.symm h₃)]

end C3

namespace D1

theorem chunkList_nil {α : Type} (bs : Nat) : chunkList (α := α) bs [] = [] := by
  simp [chunkList]

theorem chunkList_cons {α : Type} (bs : Nat) (hb : bs ≠ 0) (q : α) (rest : List α) :
    chunkList bs (q :: rest)
      = (q :: rest).take bs :: chunkList bs ((q :: rest).drop bs) := by
  rw [chunkList]
  simp [hb]

/-- Ceiling division `(m + bs - 1) / bs` counts one more batch than the
same expression on `m - bs`, for nonempty `m`. -/
theorem ceilDiv_step (bs m : Nat) (hb : bs ≠ 0) (hm : m ≠ 0) :
    (m + bs - 1) / bs = (m - bs + bs - 1) / bs + 1 := by
  have hpos : 0 < bs := Nat.pos_of_ne_zero hb
  rcases le_or_lt m bs with h | h
  · have e1 : (m + bs - 1) / bs = 1 := by
      have h2 : m + bs - 1 = (m - 1) + bs := by omega
      rw [h2, Nat.add_div_right _ hpos, Nat.div_eq_of_lt (by omega)]
    have e2 : (m - bs + bs - 1) / bs = 0 := by
      have h3 : m - bs + bs - 1 = bs - 1 := by omega
      rw [h3, Nat.div_eq_of_lt (by omega)]
    omega
  · have h2 : m + bs - 1 = (m - bs + bs - 1) + bs := by omega
    rw [h2, Nat.add_div_right _ hpos]

theorem chunkList_length {α : Type} (bs : Nat) (hb : bs ≠ 0) :
    ∀ l : List α, (chunkList bs l).length = (l.length + bs - 1) / bs
  | [] => by
      rw [chunkList_nil]
      simp only [List.length_nil, Nat.zero_add, List.length_cons]
      exact (Nat.div_eq_of_lt (by omega)).symm
  | q :: rest => by
      rw [chunkList_cons bs hb]
      have ih := chunkList_length bs hb ((q :: rest).drop bs)
      simp only [List.length_cons, ih, List.length_drop]
      rw [ceilDiv_step bs (rest.length + 1) hb (by omega)]
termination_by l => l.length
decreasing_by
  simp only [List.length_drop, List.length_cons]
  omega

theorem chunkList_flatten {α : Type} (bs : Nat) (hb : bs ≠ 0) :
    ∀ l : List α, (chunkList bs l).flatten = l
  | [] => by rw [chunkList_nil]; rfl
  | q :: rest => by
      rw [chunkList_cons bs hb, List.flatten_cons,
          chunkList_flatten bs hb ((q :: rest).drop bs),
          List.take_append_drop]
termination_by l => l.length
decreasing_by
  simp only [List.length_drop, List.length_cons]
  omega

theorem chunkList_chunk_le {α : Type} (bs : Nat) (hb : bs ≠ 0) :
    ∀ l : List α, ∀ c ∈ chunkList bs l, c.length ≤ bs
  | [] => by rw [chunkList_nil]; intro c hc; cases hc
  | q :: rest => by
      rw [chunkList_cons bs hb]
      intro c hc
      rcases List.mem_cons.mp hc with rfl | hc'
      · simp [List.length_take]
      · exact chunkList_chunk_le bs hb ((q :: rest).drop bs) c hc'
termination_by l => l.length
decreasing_by
  simp only [List.length_drop, List.length_cons]
  omega

/-- The slice taken for batch `i + 1` of `l` is the slice taken for batch
`i` of `l` with its first `bs` elements removed. -/
theorem jsSlice_shift {α : Type} (l : List α) (bs i : Nat) :
    jsSlice l ((i + 1) * bs) ((i + 2) * bs) = jsSlice (l.drop bs) (i * bs) ((i + 1) * bs) := by
  unfold jsSlice
  have e1 : bs + i * bs = (i + 1) * bs := by ring
  have e2 : bs + (i + 1) * bs = (i + 2) * bs := by ring
  rw [List.take_drop, List.drop_drop, e1, e2]

theorem batchSplit_eq_map_chunkList (bs : Nat) (hb : bs ≠ 0) :
    ∀ l : List String, batchSplit l bs = (chunkList bs l).map (String.intercalate "; ")
  | [] => by
      rw [chunkList_nil]
      simp [batchSplit, Nat.div_eq_of_lt (show bs - 1 < bs by omega)]
  | q :: rest => by
      have ih := batchSplit_eq_map_chunkList bs hb ((q :: rest).drop bs)
      rw [chunkList_cons bs hb, List.map_cons, ← ih]
      simp only [batchSplit, List.length_drop, List.length_cons]
      rw [ceilDiv_step bs (rest.length + 1) hb (by omega), List.range_succ_eq_map]
      simp only [List.map_cons, List.map_map]
      refine congrArg₂ List.cons ?_ ?_
      · show String.intercalate "; " (jsSlice (q :: rest) (0 * bs) ((0 + 1) * bs)) = _
        norm_num [jsSlice]
      · refine List.map_congr_left ?_
        intro i _
        show String.intercalate "; " (jsSlice (q :: rest) ((i + 1) * bs) ((i + 1 + 1) * bs)) = _
        rw [show i + 1 + 1 = i + 2 from rfl, jsSlice_shift]
termination_by l => l.length
decreasing_by
  simp only [List.length_drop, List.length_cons]
  omega

end D1

namespace C3

/-- With the telemetry permission granted and the sparrow source key
present, `sendEvent` dispatches exactly one payload and bumps the counter. -/
theorem sendEvent_open (cfg : SessionConfig) (st : ReporterState) (name : String)
    (props : PropList) (now : Nat) (hTel : cfg.telemetryEnabled = true)
    (hKey : cfg.hasSparrowSourceKey = true) :
    sendEvent cfg st name props now
      = { events := st.events ++
            [{ event := "test " ++ name, deviceId := cfg.deviceId, timestamp := now,
               properties := sessionProps cfg st.amplitude_event_id ++ props }],
          amplitude_event_id := st.amplitude_event_id + 1 } := by
  simp [sendEvent, hTel, hKey]

/-- Closed form of a telemetry-enabled `collectAsyncMetrics` invocation:
it appends exactly the started payload and the terminal payload, advances
the event counter by two, and propagates the outcome to the caller. -/
theorem collectAsyncMetrics_open_eq {ρ : Type} (cfg : SessionConfig) (st : ReporterState)
    (opts : CollectOptions) (addProps : PropList) (outcome : RaceOutcome ρ)
    (startTime endTime : Nat) (hTel : cfg.telemetryEnabled = true)
    (hKey : cfg.hasSparrowSourceKey = true) (hDis : opts.disableTelemetry = false) :
    collectAsyncMetrics cfg st opts addProps outcome startTime endTime
      = ({ events := st.events ++
             [startedPayload cfg st opts startTime,
              terminalPayload cfg st opts addProps outcome startTime endTime],
           amplitude_event_id := st.amplitude_event_id + 2 },
         resultOf outcome) := by
  have hS := sendEvent_open cfg st (opts.subject ++ " started") opts.props startTime hTel hKey
  cases outcome with
  | resolved r =>
      simp only [collectAsyncMetrics, hDis, Bool.false_eq_true, if_false, hS]
      rw [sendEvent_open _ _ _ _ _ hTel hKey]
      simp [startedPayload, terminalPayload, terminalSuffix, terminalExtra, resultOf]
  | rejected e =>
      cases he : e.isCancelError with
      | true =>
          simp only [collectAsyncMetrics, hDis, Bool.false_eq_true, if_false, hS, he, if_true]
          rw [sendEvent_open _ _ _ _ _ hTel hKey]
          simp [startedPayload, terminalPayload, terminalSuffix, terminalExtra, resultOf, he]
      | false =>
          simp only [collectAsyncMetrics, hDis, Bool.false_eq_true, if_false, hS, he,
            Bool.false_eq_true]
          rw [sendEvent_open _ _ _ _ _ hTel hKey]
          simp [startedPayload, terminalPayload, terminalSuffix, terminalExtra, resultOf, he]

/-- Keys outside `computedKeys` are never bound by the trailing computed
segment of the terminal property bag. -/
theorem getProp_terminalExtra_none {ρ : Type} (outcome : RaceOutcome ρ) (k : String)
    (hk : k ∉ computedKeys outcome) : getProp (terminalExtra outcome) k = none := by
  cases outcome with
  | resolved r => rfl
  | rejected e =>
      cases he : e.isCancelError with
      | true => simp [terminalExtra, he, getProp]
      | false =>
          have hkerr : k ≠ "error" := by
            simp [computedKeys, he] at hk
            exact hk.2.2.2
          simp [terminalExtra, he, getProp, Ne.symm hkerr]

/-- The `durationMs` property of the terminal payload is the computed one. -/
theorem getProp_terminal_durationMs {ρ : Type} (cfg : SessionConfig) (st : ReporterState)
    (opts : CollectOptions) (addProps : PropList) (outcome : RaceOutcome ρ)
    (startTime endTime : Nat) :
    getProp (terminalPayload cfg st opts addProps outcome startTime endTime).properties
        "durationMs"
      = some (.num ((getDuration startTime endTime).ms : Rat)) := by
  have hextra : getProp (terminalExtra outcome) "durationMs" = none := by
    cases outcome with
    | resolved r => rfl
    | rejected e => cases he : e.isCancelError <;> simp [terminalExtra, he, getProp]
  simp [terminalPayload, getProp_append, hextra, getProp_durationProps_ms]

/-- The `durationSeconds` property of the terminal payload is the computed
one. -/
theorem getProp_terminal_durationSeconds {ρ : Type} (cfg : SessionConfig) (st : ReporterState)
    (opts : CollectOptions) (addProps : PropList) (outcome : RaceOutcome ρ)
    (startTime endTime : Nat) :
    getProp (terminalPayload cfg st opts addProps outcome startTime endTime).properties
        "durationSeconds"
      = some (.num ((getDuration startTime endTime).seconds)) := by
  have hextra : getProp (terminalExtra outcome) "durationSeconds" = none := by
    cases outcome with
    | resolved r => rfl
    | rejected e => cases he : e.isCancelError <;> simp [terminalExtra, he, getProp]
  simp [terminalPayload, getProp_append, hextra, getProp_durationProps_seconds]

/-- The `durationMinutes` property of the terminal payload is the computed
one. -/
theorem getProp_terminal_durationMinutes {ρ : Type} (cfg : SessionConfig) (st : ReporterState)
    (opts : CollectOptions) (addProps : PropList) (outcome : RaceOutcome ρ)
    (startTime endTime : Nat) :
    getProp (terminalPayload cfg st opts addProps outcome startTime endTime).properties
        "durationMinutes"
      = some (.num ((getDuration startTime endTime).minutes)) := by
  have hextra : getProp (terminalExtra outcome) "durationMinutes" = none := by
    cases outcome with
    | resolved r => rfl
    | rejected e => cases he : e.isCancelError <;> simp [terminalExtra, he, getProp]
  simp [terminalPayload, getProp_append, hextra, getProp_durationProps_minutes]

/-- Rejecting or resolving cannot change an already-settled promise, so a
fold of `cancel` runs over a settled deferred leaves it untouched. -/
theorem foldl_cancelOnce_settled {α : Type} (l : List (Option String)) (s : Settlement α)
    (h : s ≠ Settlement.pending) : l.foldl cancelOnce s = s := by
  induction l generalizing s with
  | nil => rfl
  | cons sig rest ih =>
      have hstep : cancelOnce s sig = s := by
        cases s with
        | pending => exact absurd rfl h
        | fulfilled a => rfl
        | rejected e => rfl
      rw [List.foldl_cons, hstep]
      exact ih s h

end C3

namespace C3

/-- C1: for every telemetry-enabled invocation of `collectAsyncMetrics`
(`disableTelemetry` not set, permission granted, sparrow key present)
whose wrapped operation settles, exactly one `started` event and exactly
one terminal (`completed`/`errored`/`cancelled`) event are dispatched, the
started event strictly before the terminal one, and the terminal event
carries `durationMs ≥ 0`. -/
theorem collectAsyncMetrics_lifecycle {ρ : Type} (cfg : SessionConfig) (st : ReporterState)
    (opts : CollectOptions) (addProps : PropList) (outcome : RaceOutcome ρ)
    (startTime endTime : Nat)
    (hTel : cfg.telemetryEnabled = true) (hKey : cfg.hasSparrowSourceKey = true)
    (hDis : opts.disableTelemetry = false) (hTime : startTime ≤ endTime) :
    ∃ pS pT : EventPayload,
      (collectAsyncMetrics cfg st opts addProps outcome startTime endTime).1.events
        = st.events ++ [pS, pT]
      ∧ pS.event = "test " ++ (opts.subject ++ " started")
      ∧ (pT.event = "test " ++ (opts.subject ++ " completed")
         ∨ pT.event = "test " ++ (opts.subject ++ " errored")
         ∨ pT.event = "test " ++ (opts.subject ++ " cancelled"))
      ∧ ∃ q : Rat, getProp pT.properties "durationMs" = some (.num q) ∧ 0 ≤ q := by
  refine ⟨startedPayload cfg st opts startTime,
          terminalPayload cfg st opts addProps outcome startTime endTime, ?_, rfl, ?_,
          ((getDuration startTime endTime).ms : Rat), ?_, ?_⟩
  · rw [collectAsyncMetrics_open_eq cfg st opts addProps outcome startTime endTime hTel hKey hDis]
  · cases outcome with
    | resolved r => exact Or.inl rfl
    | rejected e =>
        cases he : e.isCancelError with
        | true =>
            refine Or.inr (Or.inr ?_)
            simp [terminalPayload, terminalSuffix, he]
        | false =>
            refine Or.inr (Or.inl ?_)
            simp [terminalPayload, terminalSuffix, he]
  · exact getProp_terminal_durationMs cfg st opts addProps outcome startTime endTime
  · have hms : (0 : Int) ≤ (getDuration startTime endTime).ms := by
      simp only [getDuration]
      omega
    exact_mod_cast hms

/-- C1 witness: a concrete resolved invocation. -/
theorem collectAsyncMetrics_lifecycle_witness :
    cfg0.telemetryEnabled = true ∧ cfg0.hasSparrowSourceKey = true
    ∧ opts0.disableTelemetry = false ∧ (0 : Nat) ≤ 5
    ∧ ∃ pS pT : EventPayload,
        (collectAsyncMetrics cfg0 initialReporterState opts0
            [("newLoginSuccessful", .bool true)] (RaceOutcome.resolved (42 : Nat)) 0 5).1.events
          = initialReporterState.events ++ [pS, pT]
        ∧ pS.event = "test " ++ (opts0.subject ++ " started")
        ∧ (pT.event = "test " ++ (opts0.subject ++ " completed")
           ∨ pT.event = "test " ++ (opts0.subject ++ " errored")
           ∨ pT.event = "test " ++ (opts0.subject ++ " cancelled"))
        ∧ ∃ q : Rat, getProp pT.properties "durationMs" = some (.num q) ∧ 0 ≤ q :=
  ⟨rfl, rfl, rfl, by omega,
   collectAsyncMetrics_lifecycle cfg0 initialReporterState opts0
     [("newLoginSuccessful", .bool true)] (RaceOutcome.resolved (42 : Nat)) 0 5
     rfl rfl rfl (by omega)⟩

/-- C2: interrupts after the first collapse into the single rejection of
the cancellation deferred (a settled promise cannot be re-rejected), a
settlement of the wrapped operation arriving after that rejection is
discarded (resolving or rejecting the settled race is a no-op), and the
invocation consuming the cancellation rejection dispatches exactly one
terminal event, the `cancelled` one, while the caller sees the
`CancelError`. -/
theorem cancellation_collapse_single_terminal {ρ : Type} (sig1 sig2 : Option String)
    (rest : List (Option String)) (late : ρ) (lateErr : JsError)
    (cfg : SessionConfig) (st : ReporterState) (opts : CollectOptions) (addProps : PropList)
    (startTime endTime : Nat)
    (hTel : cfg.telemetryEnabled = true) (hKey : cfg.hasSparrowSourceKey = true)
    (hDis : opts.disableTelemetry = false) :
    rest.foldl cancelOnce (cancelOnce (cancelOnce (Settlement.pending (α := ρ)) sig1) sig2)
      = Settlement.rejected (cancelSignalError sig1)
    ∧ Settlement.resolve (Settlement.rejected (α := ρ) (cancelSignalError sig1)) late
        = Settlement.rejected (cancelSignalError sig1)
    ∧ Settlement.rejectWith (Settlement.rejected (α := ρ) (cancelSignalError sig1)) lateErr
        = Settlement.rejected (cancelSignalError sig1)
    ∧ (collectAsyncMetrics (ρ := ρ) cfg st opts addProps
          (RaceOutcome.rejected (cancelSignalError sig1)) startTime endTime).1.events
        = st.events ++
            [startedPayload cfg st opts startTime,
             terminalPayload cfg st opts addProps
               (RaceOutcome.rejected (ρ := ρ) (cancelSignalError sig1)) startTime endTime]
    ∧ (terminalPayload cfg st opts addProps
          (RaceOutcome.rejected (ρ := ρ) (cancelSignalError sig1)) startTime endTime).event
        = "test " ++ (opts.subject ++ " cancelled")
    ∧ (collectAsyncMetrics (ρ := ρ) cfg st opts addProps
          (RaceOutcome.rejected (cancelSignalError sig1)) startTime endTime).2
        = Except.error (cancelSignalError sig1) := by
  refine ⟨?_, rfl, rfl, ?_, ?_, ?_⟩
  · exact foldl_cancelOnce_settled rest _ (by simp [cancelOnce, Settlement.rejectWith])
  · rw [collectAsyncMetrics_open_eq _ _ _ _ _ _ _ hTel hKey hDis]
  · simp [terminalPayload, terminalSuffix, cancelSignalError, JsError.isCancelError]
  · rw [collectAsyncMetrics_open_eq _ _ _ _ _ _ _ hTel hKey hDis]
    rfl

/-- C2 witness: SIGINT followed by SIGTERM, then a late resolution. -/
theorem cancellation_collapse_single_terminal_witness :
    cfg0.telemetryEnabled = true ∧ cfg0.hasSparrowSourceKey = true
    ∧ opts0.disableTelemetry = false
    ∧ ([] : List (Option String)).foldl cancelOnce
        (cancelOnce (cancelOnce (Settlement.pending (α := Nat)) (some "SIGINT")) (some "SIGTERM"))
        = Settlement.rejected (cancelSignalError (some "SIGINT"))
    ∧ Settlement.resolve (Settlement.rejected (α := Nat) (cancelSignalError (some "SIGINT"))) 42
        = Settlement.rejected (cancelSignalError (some "SIGINT"))
    ∧ Settlement.rejectWith (Settlement.rejected (α := Nat) (cancelSignalError (some "SIGINT")))
          (.error "late failure" none)
        = Settlement.rejected (cancelSignalError (some "SIGINT"))
    ∧ (collectAsyncMetrics (ρ := Nat) cfg0 initialReporterState opts0 []
          (RaceOutcome.rejected (cancelSignalError (some "SIGINT"))) 0 20).1.events
        = initialReporterState.events ++
            [startedPayload cfg0 initialReporterState opts0 0,
             terminalPayload cfg0 initialReporterState opts0 []
               (RaceOutcome.rejected (ρ := Nat) (cancelSignalError (some "SIGINT"))) 0 20]
    ∧ (terminalPayload cfg0 initialReporterState opts0 []
          (RaceOutcome.rejected (ρ := Nat) (cancelSignalError (some "SIGINT"))) 0 20).event
        = "test " ++ (opts0.subject ++ " cancelled")
    ∧ (collectAsyncMetrics (ρ := Nat) cfg0 initialReporterState opts0 []
          (RaceOutcome.rejected (cancelSignalError (some "SIGINT"))) 0 20).2
        = Except.error (cancelSignalError (some "SIGINT")) := by
  have h := cancellation_collapse_single_terminal (ρ := Nat) (some "SIGINT") (some "SIGTERM")
    [] 42 (.error "late failure" none) cfg0 initialReporterState opts0 [] 0 20 rfl rfl rfl
  exact ⟨rfl, rfl, rfl, h.1, h.2.1, h.2.2.1, h.2.2.2.1, h.2.2.2.2.1, h.2.2.2.2.2⟩

end C3

namespace C3

/-- The `error` property of the terminal payload of an errored invocation
is the computed descriptor built from the original failure. -/
theorem getProp_terminal_errorDesc {ρ : Type} (cfg : SessionConfig) (st : ReporterState)
    (opts : CollectOptions) (addProps : PropList) (e : JsError)
    (hNC : e.isCancelError = false) (startTime endTime : Nat) :
    getProp (terminalPayload cfg st opts addProps (RaceOutcome.rejected (ρ := ρ) e)
        startTime endTime).properties "error"
      = some (.errorDesc e.jsMessage e.jsStack) := by
  simp [terminalPayload, terminalExtra, hNC, getProp_append, getProp]

/-- C3: a telemetry-enabled invocation whose wrapped operation throws a
non-`CancelError` failure dispatches exactly one `errored` event whose
properties hold the `{message, stack}` descriptor of the failure (fields
absent when the failure is not an `Error`), and rethrows the original
failure value unchanged. -/
theorem collectAsyncMetrics_errored {ρ : Type} (cfg : SessionConfig) (st : ReporterState)
    (opts : CollectOptions) (addProps : PropList) (e : JsError) (startTime endTime : Nat)
    (hTel : cfg.telemetryEnabled = true) (hKey : cfg.hasSparrowSourceKey = true)
    (hDis : opts.disableTelemetry = false) (hNC : e.isCancelError = false) :
    ∃ pS pE : EventPayload,
      (collectAsyncMetrics (ρ := ρ) cfg st opts addProps (RaceOutcome.rejected e)
          startTime endTime).1.events
        = st.events ++ [pS, pE]
      ∧ pE.event = "test " ++ (opts.subject ++ " errored")
      ∧ getProp pE.properties "error" = some (.errorDesc e.jsMessage e.jsStack)
      ∧ (∀ m s, e = .error m s →
          getProp pE.properties "error" = some (.errorDesc (some m) s))
      ∧ (∀ v, e = .raw v →
          getProp pE.properties "error" = some (.errorDesc none none))
      ∧ (collectAsyncMetrics (ρ := ρ) cfg st opts addProps (RaceOutcome.rejected e)
          startTime endTime).2 = Except.error e := by
  refine ⟨startedPayload cfg st opts startTime,
          terminalPayload cfg st opts addProps (RaceOutcome.rejected (ρ := ρ) e)
            startTime endTime,
          ?_, ?_, ?_, ?_, ?_, ?_⟩
  · rw [collectAsyncMetrics_open_eq _ _ _ _ _ _ _ hTel hKey hDis]
  · simp [terminalPayload, terminalSuffix, hNC]
  · exact getProp_terminal_errorDesc cfg st opts addProps e hNC startTime endTime
  · intro m s hm
    subst hm
    simpa [JsError.jsMessage, JsError.jsStack] using
      getProp_terminal_errorDesc (ρ := ρ) cfg st opts addProps (.error m s) hNC
        startTime endTime
  · intro v hv
    subst hv
    simpa [JsError.jsMessage, JsError.jsStack] using
      getProp_terminal_errorDesc (ρ := ρ) cfg st opts addProps (.raw v) hNC
        startTime endTime
  · rw [collectAsyncMetrics_open_eq _ _ _ _ _ _ _ hTel hKey hDis]
    rfl

/-- C3 witness: a thrown `Error("boom")` with a stack. -/
theorem collectAsyncMetrics_errored_witness :
    cfg0.telemetryEnabled = true ∧ cfg0.hasSparrowSourceKey = true
    ∧ opts0.disableTelemetry = false
    ∧ (JsError.error "boom" (some "stack0")).isCancelError = false
    ∧ ∃ pS pE : EventPayload,
        (collectAsyncMetrics (ρ := Nat) cfg0 initialReporterState opts0 []
            (RaceOutcome.rejected (.error "boom" (some "stack0"))) 0 7).1.events
          = initialReporterState.events ++ [pS, pE]
        ∧ pE.event = "test " ++ (opts0.subject ++ " errored")
        ∧ getProp pE.properties "error"
            = some (.errorDesc (JsError.error "boom" (some "stack0")).jsMessage
                (JsError.error "boom" (some "stack0")).jsStack)
        ∧ (∀ m s, JsError.error "boom" (some "stack0") = .error m s →
            getProp pE.properties "error" = some (.errorDesc (some m) s))
        ∧ (∀ v, JsError.error "boom" (some "stack0") = .raw v →
            getProp pE.properties "error" = some (.errorDesc none none))
        ∧ (collectAsyncMetrics (ρ := Nat) cfg0 initialReporterState opts0 []
            (RaceOutcome.rejected (.error "boom" (some "stack0"))) 0 7).2
            = Except.error (.error "boom" (some "stack0")) :=
  ⟨rfl, rfl, rfl, rfl,
   collectAsyncMetrics_errored cfg0 initialReporterState opts0 []
     (.error "boom" (some "stack0")) 0 7 rfl rfl rfl rfl⟩

/-- C4: with `disableTelemetry` set, an operation rejecting with
`Error("boom")` dispatches nothing — the reporter state is untouched — and
the caller still receives the same rejection with message `"boom"`. -/
theorem collectAsyncMetrics_disabled_boom (cfg : SessionConfig) (st : ReporterState)
    (subject : String) (props addProps : PropList) (stack : Option String)
    (startTime endTime : Nat) :
    collectAsyncMetrics (ρ := Nat) cfg st
        { subject := subject, props := props, disableTelemetry := true }
        addProps (RaceOutcome.rejected (.error "boom" stack)) startTime endTime
      = (st, Except.error (.error "boom" stack)) := rfl

end C3

namespace C3

/-- C5 counterexample: in an errored invocation whose starting AND context
property bags both bind the key `"error"`, the terminal event's `"error"`
value is the computed error descriptor, not the Invocation Context value —
so the claim that the context value wins for any key present in both, with
only the duration fields excepted, fails at the key `"error"`. -/
theorem mergeOrder_error_key_counterexample :
    getProp [("error", JsValue.str "fromStart")] "error" = some (.str "fromStart")
    ∧ getProp [("error", JsValue.str "fromContext")] "error" = some (.str "fromContext")
    ∧ (errorKeyCollisionRun.1.events.getLast?).map (fun p => getProp p.properties "error")
        = some (some (JsValue.errorDesc (some "boom") none))
    ∧ ¬ (errorKeyCollisionRun.1.events.getLast?).map (fun p => getProp p.properties "error")
        = some (some (JsValue.str "fromContext")) := by
  refine ⟨rfl, rfl, rfl, ?_⟩
  decide

/-- C5 (amended): the terminal event's properties are built by merging the
starting properties first, then the Invocation Context properties, then
the computed fields last — the three duration fields for every terminal
event, plus the `error` descriptor for errored events —: the computed
duration values always win, and for any key bound in the context bag the
context value wins unless the key is one of the event's computed keys. -/
theorem collectAsyncMetrics_merge_order {ρ : Type} (cfg : SessionConfig) (st : ReporterState)
    (opts : CollectOptions) (addProps : PropList) (outcome : RaceOutcome ρ)
    (startTime endTime : Nat) (k : String) (v : JsValue)
    (hTel : cfg.telemetryEnabled = true) (hKey : cfg.hasSparrowSourceKey = true)
    (hDis : opts.disableTelemetry = false) :
    ∃ pS pT : EventPayload,
      (collectAsyncMetrics cfg st opts addProps outcome startTime endTime).1.events
        = st.events ++ [pS, pT]
      ∧ getProp pT.properties "durationMs"
          = some (.num ((getDuration startTime endTime).ms : Rat))
      ∧ getProp pT.properties "durationSeconds"
          = some (.num ((getDuration startTime endTime).seconds))
      ∧ getProp pT.properties "durationMinutes"
          = some (.num ((getDuration startTime endTime).minutes))
      ∧ (getProp addProps k = some v → k ∉ computedKeys outcome →
          getProp pT.properties k = some v)
      ∧ (getProp addProps k = none → getProp opts.props k = some v →
          k ∉ computedKeys outcome → getProp pT.properties k = some v) := by
  refine ⟨startedPayload cfg st opts startTime,
          terminalPayload cfg st opts addProps outcome startTime endTime, ?_,
          getProp_terminal_durationMs cfg st opts addProps outcome startTime endTime,
          getProp_terminal_durationSeconds cfg st opts addProps outcome startTime endTime,
          getProp_terminal_durationMinutes cfg st opts addProps outcome startTime endTime,
          ?_, ?_⟩
  · rw [collectAsyncMetrics_open_eq cfg st opts addProps outcome startTime endTime hTel hKey hDis]
  · intro ha hk
    have hdur : getProp (durationProps (getDuration startTime endTime)) k = none := by
      refine getProp_durationProps_of_not_mem _ k ?_ ?_ ?_ <;>
        · rintro rfl
          apply hk
          cases outcome with
          | resolved r => simp [computedKeys]
          | rejected e => cases he : e.isCancelError <;> simp [computedKeys, he]
    have hextra := getProp_terminalExtra_none outcome k hk
    simp [terminalPayload, getProp_append, hextra, hdur, ha]
  · intro ha hp hk
    have hdur : getProp (durationProps (getDuration startTime endTime)) k = none := by
      refine getProp_durationProps_of_not_mem _ k ?_ ?_ ?_ <;>
        · rintro rfl
          apply hk
          cases outcome with
          | resolved r => simp [computedKeys]
          | rejected e => cases he : e.isCancelError <;> simp [computedKeys, he]
    have hextra := getProp_terminalExtra_none outcome k hk
    simp [terminalPayload, getProp_append, hextra, hdur, ha, hp]

/-- C5 witness: a resolved invocation with a context-bound property. -/
theorem collectAsyncMetrics_merge_order_witness :
    cfg0.telemetryEnabled = true ∧ cfg0.hasSparrowSourceKey = true
    ∧ opts0.disableTelemetry = false
    ∧ ∃ pS pT : EventPayload,
        (collectAsyncMetrics cfg0 initialReporterState opts0
            [("newLoginSuccessful", .bool true)] (RaceOutcome.resolved (42 : Nat)) 0 5).1.events
          = initialReporterState.events ++ [pS, pT]
        ∧ getProp pT.properties "durationMs" = some (.num ((getDuration 0 5).ms : Rat))
        ∧ getProp pT.properties "newLoginSuccessful" = some (.bool true) := by
  obtain ⟨pS, pT, hev, hms, _, _, hctx, _⟩ :=
    collectAsyncMetrics_merge_order cfg0 initialReporterState opts0
      [("newLoginSuccessful", .bool true)] (RaceOutcome.resolved (42 : Nat)) 0 5
      "newLoginSuccessful" (.bool true) rfl rfl rfl
  exact ⟨rfl, rfl, rfl, pS, pT, hev, hms, hctx rfl (by decide)⟩

end C3

namespace C3

/-- C6: across any sequence of dispatched events of one reporter, the
`amplitude_event_id` values assigned are exactly the consecutive run
starting at the current counter (so events dispatched in order A, B, C get
ids n, n+1, n+2), and the counter only ever advances — it is never reset
or reused. -/
theorem runSends_event_ids (cfg : SessionConfig) (st : ReporterState)
    (reqs : List SendRequest)
    (hTel : cfg.telemetryEnabled = true) (hKey : cfg.hasSparrowSourceKey = true)
    (hFresh : ∀ r ∈ reqs, getProp r.props "amplitude_event_id" = none) :
    (runSends cfg st reqs).events.map eventIdOf
      = st.events.map eventIdOf
        ++ (List.range' st.amplitude_event_id reqs.length).map
            (fun n => some (JsValue.num (n : Rat)))
    ∧ (runSends cfg st reqs).amplitude_event_id = st.amplitude_event_id + reqs.length := by
  induction reqs generalizing st with
  | nil => simp [runSends]
  | cons r rs ih =>
      have hr : getProp r.props "amplitude_event_id" = none := hFresh r (by simp)
      have hrs : ∀ x ∈ rs, getProp x.props "amplitude_event_id" = none :=
        fun x hx => hFresh x (List.mem_cons_of_mem _ hx)
      have hstep := sendEvent_open cfg st r.name r.props r.now hTel hKey
      have hrun : runSends cfg st (r :: rs)
          = runSends cfg (sendEvent cfg st r.name r.props r.now) rs := rfl
      obtain ⟨ih1, ih2⟩ := ih (sendEvent cfg st r.name r.props r.now) hrs
      constructor
      · rw [hrun, ih1, hstep]
        simp only [List.length_cons, List.range'_succ, List.map_cons, List.map_append,
          List.append_assoc, List.singleton_append]
        rw [show eventIdOf
              { event := "test " ++ r.name, deviceId := cfg.deviceId, timestamp := r.now,
                properties := sessionProps cfg st.amplitude_event_id ++ r.props }
            = some (JsValue.num (st.amplitude_event_id : Rat)) from by
          simp [eventIdOf, getProp_append, hr, getProp_sessionProps_eventId]]
        simp
      · rw [hrun, ih2, hstep]
        simp only [List.length_cons]
        omega

/-- C6 witness: two dispatched events receive ids 0 and 1. -/
theorem runSends_event_ids_witness :
    cfg0.telemetryEnabled = true ∧ cfg0.hasSparrowSourceKey = true
    ∧ (∀ r ∈ [({ name := "c3 session started", props := [], now := 0 } : SendRequest),
              { name := "c3 session completed", props := [], now := 5 }],
        getProp r.props "amplitude_event_id" = none)
    ∧ ((runSends cfg0 initialReporterState
          [({ name := "c3 session started", props := [], now := 0 } : SendRequest),
           { name := "c3 session completed", props := [], now := 5 }]).events.map eventIdOf
        = initialReporterState.events.map eventIdOf
          ++ (List.range' initialReporterState.amplitude_event_id
              ([({ name := "c3 session started", props := [], now := 0 } : SendRequest),
                { name := "c3 session completed", props := [], now := 5 }]).length).map
              (fun n => some (JsValue.num (n : Rat)))
      ∧ (runSends cfg0 initialReporterState
          [({ name := "c3 session started", props := [], now := 0 } : SendRequest),
           { name := "c3 session completed", props := [], now := 5 }]).amplitude_event_id
        = initialReporterState.amplitude_event_id
          + ([({ name := "c3 session started", props := [], now := 0 } : SendRequest),
              { name := "c3 session completed", props := [], now := 5 }]).length) :=
  ⟨rfl, rfl, by decide,
   runSends_event_ids cfg0 initialReporterState
     [{ name := "c3 session started", props := [], now := 0 },
      { name := "c3 session completed", props := [], now := 5 }] rfl rfl (by decide)⟩

/-- C7: `setEventProperty` invoked with no active Invocation Context is a
silent no-op in normal operation (the ambient store stays absent and
nothing is recorded), while in strict mode (`process.env.VITEST`) the same
call fails with the programming-error exception. -/
theorem setEventProperty_outside_context (k : String) (v : JsValue) :
    setEventProperty false none k v = Except.ok none
    ∧ setEventProperty true none k v
        = Except.error
            (.error "`setEventProperty` must be called within `collectAsyncMetrics`" none) :=
  ⟨rfl, rfl⟩

/-- C8: `updateC3Pemission` is idempotent — when the stored permission
record already has the requested enabled state, nothing is written and the
record keeps its original date. -/
theorem updateC3Pemission_idempotent (now : Nat) (stored : MetricsConfig)
    (p : C3PermissionRec) (enabled : Bool)
    (hrec : stored.c3permission = some p) (hsame : p.enabled = enabled) :
    updateC3Pemission now stored enabled = (stored, false) := by
  simp [updateC3Pemission, hrec, hsame]

/-- C8 witness: enabling an already-enabled record re-stamps nothing. -/
theorem updateC3Pemission_idempotent_witness :
    ({ c3permission := some { enabled := true, date := 7 }, deviceId := none }
        : MetricsConfig).c3permission = some { enabled := true, date := 7 }
    ∧ ({ enabled := true, date := 7 } : C3PermissionRec).enabled = true
    ∧ updateC3Pemission 99
        { c3permission := some { enabled := true, date := 7 }, deviceId := none } true
      = ({ c3permission := some { enabled := true, date := 7 }, deviceId := none }, false) :=
  ⟨rfl, rfl,
   updateC3Pemission_idempotent 99
     { c3permission := some { enabled := true, date := 7 }, deviceId := none }
     { enabled := true, date := 7 } true rfl rfl⟩

/-- C9: `waitForAllEventsSettled` always resolves: each dispatch promise
is capped by a `.catch` that converts failures into failed dispatch
records, and `Promise.allSettled` never rejects — so it resolves for any
mix of failed and successful sends, and trivially when no event was ever
dispatched. -/
theorem waitForAllEventsSettled_resolves
    (sends : List (EventPayload × PromiseResult Unit)) :
    waitForAllEventsSettled (sends.map fun s => dispatchRecord s.1 s.2)
      = PromiseResult.fulfilled ()
    ∧ waitForAllEventsSettled [] = PromiseResult.fulfilled () :=
  ⟨rfl, rfl⟩

end C3

namespace D1

/-- C10: for a positive batch size, `batchSplit` returns one "; "-joined
batch per chunk of a decomposition of the input into consecutive runs of
at most `batchSize` statements whose concatenation is exactly the input in
its original order; the number of batches is `⌈n / batchSize⌉`, and an
empty statement list yields no batches. -/
theorem batchSplit_spec (queries : List String) (batchSize : Nat) (hb : 0 < batchSize) :
    batchSplit queries batchSize
      = (chunkList batchSize queries).map (String.intercalate "; ")
    ∧ (chunkList batchSize queries).flatten = queries
    ∧ (∀ c ∈ chunkList batchSize queries, c.length ≤ batchSize)
    ∧ (batchSplit queries batchSize).length
        = (queries.length + batchSize - 1) / batchSize
    ∧ batchSplit [] batchSize = [] := by
  have hb' : batchSize ≠ 0 := by omega
  refine ⟨batchSplit_eq_map_chunkList batchSize hb' queries,
          chunkList_flatten batchSize hb' queries,
          chunkList_chunk_le batchSize hb' queries, ?_, ?_⟩
  · rw [batchSplit_eq_map_chunkList batchSize hb' queries, List.length_map,
        chunkList_length batchSize hb' queries]
  · rw [batchSplit_eq_map_chunkList batchSize hb' [], chunkList_nil]
    rfl

/-- C10 witness: three statements in batches of two. -/
theorem batchSplit_spec_witness :
    (0 : Nat) < 2
    ∧ (batchSplit ["a", "b", "c"] 2
          = (chunkList 2 ["a", "b", "c"]).map (String.intercalate "; ")
      ∧ (chunkList 2 ["a", "b", "c"]).flatten = ["a", "b", "c"]
      ∧ (∀ c ∈ chunkList 2 ["a", "b", "c"], c.length ≤ 2)
      ∧ (batchSplit ["a", "b", "c"] 2).length
          = ((["a", "b", "c"] : List String).length + 2 - 1) / 2
      ∧ batchSplit [] 2 = []) :=
  ⟨by omega, batchSplit_spec ["a", "b", "c"] 2 (by omega)⟩

end D1
